import Mathlib

/-!
Verification of the vortex HTTP client library (`main.go`).

The Go source is shallowly embedded: `http.Header` and `url.Values` become
association lists of `String × List String`, the Go standard-library helpers
the code relies on (`textproto.CanonicalMIMEHeaderKey`, `url.Values.Encode`,
`url.QueryEscape`, `filepath.Base`, `httptest.ResponseRecorder`) are modelled
byte-faithfully, I/O effects (filesystem reads, the network round trip, JSON
marshalling of opaque caller values) are supplied through explicit
environment records, and the dispatch pipeline (`prepareRequestBody`,
`writeFormData`, `setRequestHeaders`, `createHandler`, `doRequest`) is
translated function by function.
-/

set_option autoImplicit false

namespace Vortex

/-! ## Byte-level helpers for Go string routines -/

/-- UTF-8 encoding of a single character as its list of byte values,
matching Go string iteration over bytes. -/
def utf8Bytes (c : Char) : List Nat :=
  let n := c.toNat
  if n < 128 then [n]
  else if n < 2048 then [192 + n / 64, 128 + n % 64]
  else if n < 65536 then [224 + n / 4096, 128 + (n / 64) % 64, 128 + n % 64]
  else [240 + n / 262144, 128 + (n / 4096) % 64, 128 + (n / 64) % 64, 128 + n % 64]

/-- The bytes of a Go string. -/
def strBytes (s : String) : List Nat :=
  (s.data.map utf8Bytes).flatten

/-- Characters Go's `net/textproto` accepts in a header field name
(`validHeaderFieldByte`): digits, letters, and the token punctuation set. -/
def validProp (n : Nat) : Prop :=
  (48 ≤ n ∧ n ≤ 57) ∨ (65 ≤ n ∧ n ≤ 90) ∨ (97 ≤ n ∧ n ≤ 122) ∨
  n = 33 ∨ n = 35 ∨ n = 36 ∨ n = 37 ∨ n = 38 ∨ n = 39 ∨ n = 42 ∨
  n = 43 ∨ n = 45 ∨ n = 46 ∨ n = 94 ∨ n = 95 ∨ n = 96 ∨ n = 124 ∨ n = 126

instance validPropDecidable : DecidablePred validProp := fun n => by
  unfold validProp; infer_instance

/-- Boolean form of `validProp`. -/
def validByte (n : Nat) : Bool := decide (validProp n)

/-- ASCII lower-casing on byte values. -/
def lowerNat (n : Nat) : Nat := if 65 ≤ n ∧ n ≤ 90 then n + 32 else n

/-- One step of Go's `canonicalMIMEHeaderKey` loop: upper-case a letter at
the start or after a hyphen, lower-case it elsewhere. -/
def canonStep (upper : Bool) (n : Nat) : Nat :=
  if upper then (if 97 ≤ n ∧ n ≤ 122 then n - 32 else n)
  else (if 65 ≤ n ∧ n ≤ 90 then n + 32 else n)

/-- The canonicalisation loop over the bytes of a key; the flag records
whether the previous output byte was a hyphen (or we are at the start). -/
def canonList (upper : Bool) : List Nat → List Nat
  | [] => []
  | n :: ns =>
    let m := canonStep upper n
    m :: canonList (m == 45) ns

/-- Go's `textproto.CanonicalMIMEHeaderKey`: if any byte is not a valid
header-field byte the key is returned unchanged, otherwise it is
case-canonicalised. Header keys are ASCII when valid, so bytes and
characters coincide. -/
def canonicalKey (s : String) : String :=
  let bs := s.data.map Char.toNat
  if bs.all validByte then String.mk ((canonList true bs).map Char.ofNat) else s

/-! ## Association-list maps mirroring `http.Header` and `url.Values` -/

/-- `http.Header` and `url.Values` are maps from string keys to lists of
string values; we model them as association lists (Go map iteration order
is unspecified; the list order stands in for it). -/
abbrev StrMultimap := List (String × List String)

/-- Look up the value list stored under exactly this key. -/
def mmFind : StrMultimap → String → Option (List String)
  | [], _ => none
  | (k', vs) :: t, k => if k' = k then some vs else mmFind t k

/-- Replace the entry for a key with a fresh singleton-ready value list
(`map[key] = vs`). -/
def mmSet : StrMultimap → String → List String → StrMultimap
  | [], k, vs => [(k, vs)]
  | (k', vs') :: t, k, vs => if k' = k then (k', vs) :: t else (k', vs') :: mmSet t k vs

/-- Append one value to the list stored under a key
(`map[key] = append(map[key], v)`). -/
def mmAdd : StrMultimap → String → String → StrMultimap
  | [], k, v => [(k, [v])]
  | (k', vs') :: t, k, v =>
    if k' = k then (k', vs' ++ [v]) :: t else (k', vs') :: mmAdd t k v

namespace Header

/-- `http.Header.Set`: store a singleton value list under the canonical key. -/
def set (h : StrMultimap) (key value : String) : StrMultimap :=
  mmSet h (canonicalKey key) [value]

/-- `http.Header.Add`: append a value under the canonical key. -/
def add (h : StrMultimap) (key value : String) : StrMultimap :=
  mmAdd h (canonicalKey key) value

/-- `http.Header.Get`: the first value under the canonical key, `""` when
the key is absent or its list is empty. -/
def get (h : StrMultimap) (key : String) : String :=
  match mmFind h (canonicalKey key) with
  | some (v :: _) => v
  | _ => ""

/-- All values attached under the canonical key (empty when absent). -/
def values (h : StrMultimap) (key : String) : List String :=
  (mmFind h (canonicalKey key)).getD []

end Header

namespace Values

/-- `url.Values.Set`: exact (non-canonicalised) key. -/
def set (v : StrMultimap) (key value : String) : StrMultimap :=
  mmSet v key [value]

/-- `url.Values.Get`: first value under the exact key, `""` when absent. -/
def get (v : StrMultimap) (key : String) : String :=
  match mmFind v key with
  | some (x :: _) => x
  | _ => ""

end Values

/-! ## `url.QueryEscape` and `url.Values.Encode` -/

/-- Upper-case hexadecimal digit. -/
def hexDigit (n : Nat) : Char :=
  if n < 10 then Char.ofNat (48 + n) else Char.ofNat (55 + n)

/-- Escape a single byte the way `url.QueryEscape` does: unreserved bytes
pass through, space becomes `+`, everything else becomes `%XX`. -/
def escByte (n : Nat) : String :=
  if (48 ≤ n ∧ n ≤ 57) ∨ (65 ≤ n ∧ n ≤ 90) ∨ (97 ≤ n ∧ n ≤ 122) ∨
      n = 45 ∨ n = 95 ∨ n = 46 ∨ n = 126 then
    String.mk [Char.ofNat n]
  else if n = 32 then "+"
  else String.mk ['%', hexDigit (n / 16), hexDigit (n % 16)]

/-- Go's `url.QueryEscape`. -/
def queryEscape (s : String) : String :=
  String.join ((strBytes s).map escByte)

/-- Byte-wise lexicographic comparison of strings (UTF-8 byte order agrees
with code-point order, so comparing character codes is faithful to Go's
`sort.Strings`). -/
def natLexLe : List Nat → List Nat → Bool
  | [], _ => true
  | _ :: _, [] => false
  | x :: xs, y :: ys => if x < y then true else if y < x then false else natLexLe xs ys

/-- String order used by `sort.Strings`. -/
def strLeB (a b : String) : Bool :=
  natLexLe (a.data.map Char.toNat) (b.data.map Char.toNat)

/-- Insertion into a sorted list of strings. -/
def insertStr (x : String) : List String → List String
  | [] => [x]
  | y :: ys => if strLeB x y then x :: y :: ys else y :: insertStr x ys

/-- Insertion sort over strings, modelling `sort.Strings`. -/
def sortStrs : List String → List String
  | [] => []
  | x :: xs => insertStr x (sortStrs xs)

/-- Go's `url.Values.Encode`: keys sorted, each `key=value` pair escaped
and joined with `&`. -/
def Values.encode (v : StrMultimap) : String :=
  let keys := sortStrs (v.map Prod.fst)
  let pieces := keys.map (fun k =>
    ((mmFind v k).getD []).map (fun x => queryEscape k ++ "=" ++ queryEscape x))
  String.intercalate "&" pieces.flatten

/-! ## Go standard-library odds and ends -/

/-- Whether the second char list occurs at the start of the first. -/
def listStarts : List Char → List Char → Bool
  | _, [] => true
  | [], _ :: _ => false
  | c :: cs, p :: ps => c = p && listStarts cs ps

/-- Whether the second char list occurs anywhere in the first
(`strings.Contains`). -/
def listHasSub : List Char → List Char → Bool
  | [], p => p.isEmpty
  | c :: cs, p => listStarts (c :: cs) p || listHasSub cs p

/-- Go's `strings.Contains`. -/
def strContains (s pat : String) : Bool := listHasSub s.data pat.data

/-- Go's `filepath.Base` (Unix): `""` gives `"."`, trailing slashes are
dropped, an all-slash path gives `"/"`, otherwise the last component. -/
def baseName (p : String) : String :=
  if p = "" then "." else
  let cs := (p.data.reverse.dropWhile (fun c => c = '/')).reverse
  if cs = [] then "/" else String.mk ((cs.reverse.takeWhile (fun c => c ≠ '/')).reverse)

/-! ## Data model

The dispatch pipeline's records: parsed URLs, transport responses, the
`httptest` recorder, the `Request` descriptor snapshot and the `Response`
returned to the caller. Opaque Go values (an `interface{}` body, a
`multipart.File`, the JSON decoding of a caller-supplied output target)
are represented by the outcome of the operations the code performs on
them, supplied through an explicit environment. -/

instance exceptDecEq {ε α : Type} [DecidableEq ε] [DecidableEq α] :
    DecidableEq (Except ε α) := fun a b =>
  match a, b with
  | .error e, .error f =>
    if h : e = f then .isTrue (by subst h; rfl)
    else .isFalse (fun hh => by cases hh; exact h rfl)
  | .error _, .ok _ => .isFalse (fun hh => by cases hh)
  | .ok _, .error _ => .isFalse (fun hh => by cases hh)
  | .ok x, .ok y =>
    if h : x = y then .isTrue (by subst h; rfl)
    else .isFalse (fun hh => by cases hh; exact h rfl)

/-- The `*os.File` view of a form file: its `Name()` and the outcome of
streaming its contents (`io.Copy` may fail). -/
structure OsFileData where
  name : String
  content : Except String String
deriving Repr, DecidableEq

/-- A `multipart.File` value. `osFile` is `some` exactly when the dynamic
type is `*os.File` (the assertion `writeFormData` performs); `namedOnly`
is a `Name()` exposed by a non-`os.File` implementation (the weaker
`NamedFile` assertion the curl renderer performs). -/
structure GoFile where
  osFile : Option OsFileData := none
  namedOnly : Option String := none
deriving Repr, DecidableEq

/-- The name the `NamedFile` interface assertion retrieves, when any. -/
def GoFile.retrievableName (f : GoFile) : Option String :=
  match f.osFile with
  | some od => some od.name
  | none => f.namedOnly

/-- One part written by the multipart writer. -/
inductive Part where
  | filePart (field filename content : String)
  | fieldPart (field value : String)
deriving Repr, DecidableEq

/-- The request body handed to `http.NewRequest`. -/
inductive ReqBody where
  | empty
  | json (s : String)
  | multipart (parts : List Part)
deriving Repr, DecidableEq

/-- A parsed `url.URL`, abstracted to the part before the query plus the
`RawQuery` (the only field the code writes). -/
structure ParsedURL where
  pre : String
  rawQuery : String
deriving Repr, DecidableEq

/-- `url.URL.String()`: re-attach the query when present. -/
def ParsedURL.toString (u : ParsedURL) : String :=
  if u.rawQuery = "" then u.pre else u.pre ++ "?" ++ u.rawQuery

/-- The raw transport response (`*http.Response`): status code and body
stream contents. -/
structure TranspResp where
  statusCode : Nat
  body : String
deriving Repr, DecidableEq

/-- The in-flight `*http.Request`. -/
structure Req where
  method : String
  url : ParsedURL
  header : StrMultimap
  body : ReqBody
deriving Repr, DecidableEq

/-- The `Request` descriptor snapshot attached to a `Response`. Field
defaults are the Go zero values, used when the handler never reaches the
snapshot assignment. -/
structure Request where
  method : String := ""
  url : String := ""
  headers : StrMultimap := []
  body : String := ""
  queryParams : StrMultimap := []
  formFilePath : List (String × String) := []
  formData : List (String × String) := []
  formFile : List (String × GoFile) := []
  insecure : Bool := false
deriving Repr, DecidableEq

/-- The `Response` returned to the caller. `outputSet` mirrors the opaque
`Output` field: it records whether a caller output target was attached. -/
structure Response where
  statusCode : Nat
  body : String
  outputSet : Bool
  request : Request
deriving Repr, DecidableEq

/-- The `httptest.ResponseRecorder`: first `WriteHeader` wins, `Write`
defaults the code to 200. `NewRecorder` starts at code 200. -/
structure Recorder where
  code : Nat
  wroteHeader : Bool
  body : String
deriving Repr, DecidableEq

/-- The mutable state threaded through a dispatch: the recorder the handler
writes to, the snapshot variable `request`, and instrumentation recording
what hooks observed, the event log, and how often the transport was
consulted. -/
structure World where
  recorder : Recorder
  snapshot : Option Request
  hookStatuses : List Nat
  events : List String
  netCalls : Nat
deriving Repr, DecidableEq

/-- The world at the start of a dispatch. -/
def World.init : World :=
  { recorder := { code := 200, wroteHeader := false, body := "" },
    snapshot := none, hookStatuses := [], events := [], netCalls := 0 }

/-- `http.HandlerFunc`, as a transformer of the dispatch world reading the
in-flight request. -/
abbrev HandlerFunc := Req → World → World

/-- `Middleware`: receives the request and the next handler, returns the
wrapping handler. -/
abbrev Middleware := Req → HandlerFunc → HandlerFunc

/-- The client configuration state. `hooks` counts registered hooks (each
hook observes the same raw response; the observation is recorded in the
world), `stream` gives the registered streaming consumer's outcome and the
body bytes it leaves unread, `hasOutput` records whether an output target
was set. -/
structure Client where
  baseURL : String := ""
  retries : Nat := 0
  headers : StrMultimap := []
  queryParams : StrMultimap := []
  hasOutput : Bool := false
  middleware : List Middleware := []
  hooks : Nat := 0
  stream : Option (TranspResp → Except String Unit × String) := none
  formFilePath : List (String × String) := []
  formData : List (String × String) := []
  formFile : List (String × GoFile) := []
  insecure : Bool := false

/-- The effectful collaborators of one dispatch: the filesystem
(`os.Open` + `io.Copy` collapsed to one outcome per path), the URL parser
of `http.NewRequest`, the transport (`httpClient.Do`), the JSON decoding
of the response body into the caller's output target, and the boundary the
multipart writer generated. -/
structure Env where
  fs : String → Except String String
  parseURL : String → Except String ParsedURL
  net : Except String TranspResp
  decodeOutput : String → Except String Unit
  boundary : String

/-! ## Builder calls used by the claims -/

/-- `Client.SetHeader`: `c.headers.Set(key, value)`. -/
def Client.SetHeader (c : Client) (key value : String) : Client :=
  { c with headers := Header.set c.headers key value }

/-- `Client.SetQueryParam`: `c.queryParams.Set(key, value)`. -/
def Client.SetQueryParam (c : Client) (key value : String) : Client :=
  { c with queryParams := Values.set c.queryParams key value }

/-- `Client.UseMiddleware`: appends to the registered list. -/
def Client.UseMiddleware (c : Client) (ms : List Middleware) : Client :=
  { c with middleware := c.middleware ++ ms }

/-- `Client.UseHook`: appends to the registered list (hooks are counted). -/
def Client.UseHook (c : Client) (n : Nat) : Client :=
  { c with hooks := c.hooks + n }

/-! ## `SetQueryParamFromInterface` -/

/-- A JSON value, the image of `json.Marshal` on the caller's object.
Numbers are modelled as integers (`%v` of an integral `float64` prints its
plain decimal form). -/
inductive Json where
  | str (s : String)
  | num (n : Int)
  | bool (b : Bool)
  | null
  | arr (xs : List Json)
  | obj (fields : List (String × Json))

mutual

/-- `fmt.Sprintf("%v", x)` on a value produced by `json.Unmarshal` into
`interface{}`. -/
def goStringify : Json → String
  | .str s => s
  | .num n => toString n
  | .bool b => if b then "true" else "false"
  | .null => "<nil>"
  | .arr xs => "[" ++ String.intercalate " " (goStringifyList xs) ++ "]"
  | .obj fs => "map[" ++ String.intercalate " " (goStringifyObj fs) ++ "]"

/-- `%v` of each element of a slice. -/
def goStringifyList : List Json → List String
  | [] => []
  | x :: xs => goStringify x :: goStringifyList xs

/-- `%v` of each `key:value` entry of a map. -/
def goStringifyObj : List (String × Json) → List String
  | [] => []
  | kv :: fs => (kv.1 ++ ":" ++ goStringify kv.2) :: goStringifyObj fs

end

/-- The outcome of `SetQueryParamFromInterface`: either the mutated client,
or `log.Fatalf` — which logs and terminates the process via `os.Exit(1)`. -/
inductive SetQPOutcome where
  | ok (c : Client)
  | fatal (msg : String)

/-- Whether the outcome is the process-terminating `log.Fatalf` path. -/
def SetQPOutcome.isFatal : SetQPOutcome → Bool
  | .ok _ => false
  | .fatal _ => true

/-- The query parameters of an `ok` outcome (empty for `fatal`). -/
def SetQPOutcome.queryParams : SetQPOutcome → StrMultimap
  | .ok c => c.queryParams
  | .fatal _ => []

/-- `Client.SetQueryParamFromInterface`. The argument is the outcome of
`json.Marshal(params)` (its error is discarded by the code, leaving nil
bytes that `json.Unmarshal` rejects). Re-parsing into
`map[string]interface\x7b\x7d` succeeds only for a JSON object (or `null`,
which leaves the nil map); any other shape hits `log.Fatalf`. -/
def Client.SetQueryParamFromInterface (c : Client) (marshalled : Except String Json) :
    SetQPOutcome :=
  match marshalled with
  | .error _ => .fatal "Error unmarshalling query params"
  | .ok j =>
    match j with
    | .obj fields =>
      .ok { c with queryParams :=
        fields.foldl (fun q kv => Values.set q kv.1 (goStringify kv.2)) c.queryParams }
    | .null => .ok c
    | _ => .fatal "Error unmarshalling query params"

/-! ## Form encoding -/

/-- Whether any multipart input is present — the condition the code tests
both in `prepareRequestBody` and in `setRequestHeaders`. -/
def multipartActive (c : Client) : Bool :=
  c.formFilePath.length > 0 || c.formData.length > 0 || c.formFile.length > 0

/-- Effectful map over a list that stops at the first error, the shape of
the loops with early `return err` in `writeFormData`. -/
def exMapM {α β : Type} (f : α → Except String β) : List α → Except String (List β)
  | [] => .ok []
  | x :: xs =>
    match f x with
    | .error e => .error e
    | .ok y =>
      match exMapM f xs with
      | .error e => .error e
      | .ok ys => .ok (y :: ys)

/-- One iteration of the file-path loop of `writeFormData`: open the file,
create a part named after the key with the path's base name as filename,
and stream the contents; an open or copy failure aborts. -/
def openFilePart (env : Env) (kp : String × String) : Except String Part :=
  match env.fs kp.2 with
  | .error e => .error e
  | .ok content => .ok (.filePart kp.1 (baseName kp.2) content)

/-- One iteration of the open-file loop of `writeFormData`: the value must
be an `*os.File` (else `"file is not an *os.File"`), the part is named
after the field with the file's full `Name()`, and the contents are
streamed. -/
def openFormFilePart (kf : String × GoFile) : Except String Part :=
  match kf.2.osFile with
  | none => .error "file is not an *os.File"
  | some od =>
    match od.content with
    | .error e => .error e
    | .ok content => .ok (.filePart kf.1 od.name content)

/-- `writeFormData`: file-path parts, then plain fields (`WriteField`'s
error is discarded; writing to a `bytes.Buffer` cannot fail), then
open-file parts. -/
def writeFormData (c : Client) (env : Env) : Except String (List Part) :=
  match exMapM (openFilePart env) c.formFilePath with
  | .error e => .error e
  | .ok fileParts =>
    let fieldParts := c.formData.map (fun kv => Part.fieldPart kv.1 kv.2)
    match exMapM openFormFilePart c.formFile with
    | .error e => .error e
    | .ok openParts => .ok (fileParts ++ fieldParts ++ openParts)

/-- `prepareRequestBody`: multipart wins whenever any form input is
present (the `body` argument is not consulted there); otherwise a non-nil
body is JSON-marshalled (the argument carries the outcome of
`json.Marshal`); otherwise no body. Returns the request body together
with `jsonBody` (empty string standing for the nil byte slice). -/
def prepareRequestBody (c : Client) (env : Env) (body : Option (Except String String)) :
    Except String (ReqBody × String) :=
  if multipartActive c then
    match writeFormData c env with
    | .error e => .error e
    | .ok parts => .ok (.multipart parts, "")
  else
    match body with
    | some (.error e) => .error e
    | some (.ok jsonBody) => .ok (.json jsonBody, jsonBody)
    | none => .ok (.empty, "")

/-! ## Header assembly -/

/-- `multipart.Writer.FormDataContentType()`. -/
def FormDataContentType (boundary : String) : String :=
  "multipart/form-data; boundary=" ++ boundary

/-- Inner loop of `addHeaders`: `req.Header.Add(key, value)` for each
value. -/
def addValues (k : String) : List String → StrMultimap → StrMultimap
  | [], h => h
  | v :: vs, h => addValues k vs (Header.add h k v)

/-- Outer loop of `addHeaders` over the configured header entries. -/
def addAllValues : List (String × List String) → StrMultimap → StrMultimap
  | [], h => h
  | kv :: rest, h => addAllValues rest (addValues kv.1 kv.2 h)

/-- `addHeaders`: merge every configured header onto the request,
additively. -/
def addHeaders (c : Client) (req : Req) : Req :=
  { req with header := addAllValues c.headers req.header }

/-- `setRequestHeaders`: query string for GET/DELETE; default JSON
Content-Type for POST/PUT/PATCH when unset and no file paths; the
multipart Content-Type whenever form inputs are present; then the additive
header merge. -/
def setRequestHeaders (c : Client) (env : Env) (req : Req) (method : String) : Req :=
  let req :=
    if method = "GET" ∨ method = "DELETE" then
      { req with url := { req.url with rawQuery := Values.encode c.queryParams } }
    else if method = "POST" ∨ method = "PUT" ∨ method = "PATCH" then
      (if Header.get c.headers "Content-Type" = "" ∧ c.formFilePath.length = 0 then
        { req with header := Header.set req.header "Content-Type" "application/json" }
      else req)
    else req
  let req :=
    if multipartActive c then
      { req with header := Header.set req.header "Content-Type" (FormDataContentType env.boundary) }
    else req
  addHeaders c req

/-! ## The dispatch handler -/

/-- Recorder `WriteHeader`: the first call wins, later calls are ignored. -/
def recWriteHeader (w : World) (code : Nat) : World :=
  if w.recorder.wroteHeader then w
  else { w with recorder := { code := code, wroteHeader := true, body := w.recorder.body } }

/-- Recorder `Write`: defaults the status to 200 if none was written, then
appends to the recorded body. Never fails. -/
def recWrite (w : World) (s : String) : World :=
  let w' := recWriteHeader w 200
  { w' with recorder := { w'.recorder with body := w'.recorder.body ++ s } }

/-- `http.Error(w, msg, code)`: write the status, then the message plus a
newline. -/
def httpError (w : World) (msg : String) (code : Nat) : World :=
  recWrite (recWriteHeader w code) (msg ++ "\n")

/-- The value assigned to the `request` snapshot variable on the success
path of the handler (its `QueryParams` field is not listed in the Go
composite literal, so it stays at the zero value). -/
def snapOf (c : Client) (method : String) (req : Req) (jsonBody : String) : Request :=
  { method := method, url := req.url.toString, headers := req.header,
    body := jsonBody, queryParams := [],
    formFilePath := c.formFilePath, formData := c.formData,
    formFile := c.formFile, insecure := c.insecure }

/-- `createHandler`: the innermost handler. Consults the transport (the
insecure branch only reconfigures TLS on the underlying client), turning a
transport error into a recorded 500; fires every hook on the raw response;
runs the streaming consumer, turning its error into a recorded 500; reads
the remaining body; decodes into the output target when one is set,
turning a decode error into a recorded 500; assigns the `request` snapshot
(its `QueryParams` field is left at the zero value); and finally writes the
upstream status code and body to the recorder. The snapshot uses the
captured `req`, not the handler argument. -/
def createHandler (c : Client) (env : Env) (method : String) (req : Req) (jsonBody : String) :
    HandlerFunc :=
  fun _r w =>
    let w := { w with events := w.events ++ ["net"], netCalls := w.netCalls + 1 }
    match env.net with
    | .error e => httpError w e 500
    | .ok resp =>
      let w := { w with hookStatuses := w.hookStatuses ++ List.replicate c.hooks resp.statusCode }
      let sres : Except String Unit × String :=
        match c.stream with
        | none => (.ok (), resp.body)
        | some f => f resp
      match sres.1 with
      | .error e => httpError w e 500
      | .ok _ =>
        let respBody := sres.2
        match (if c.hasOutput then env.decodeOutput respBody else .ok ()) with
        | .error e => httpError w e 500
        | .ok _ =>
          let w := { w with snapshot := some (snapOf c method req jsonBody) }
          recWrite (recWriteHeader w resp.statusCode) respBody

/-- The composition loop of `doRequest`: `for i := len-1; i >= 0; i--`
wraps the handler with each middleware, so the first-registered one ends
up outermost. -/
def composeMiddleware (mws : List Middleware) (req : Req) (base : HandlerFunc) : HandlerFunc :=
  mws.foldr (fun m h => m req h) base

/-- `doRequest`: build the body, construct the request, assemble headers,
compose the middleware chain, run it against a fresh recorder, and return
the `Response` read off the recorder. Errors before the handler runs are
returned to the caller; once the handler runs, the call returns a
`Response` and a nil error unconditionally. The dispatch world is returned
alongside for observation. -/
def doRequest (c : Client) (env : Env) (method endpoint : String)
    (body : Option (Except String String)) : Except String Response × World :=
  match prepareRequestBody c env body with
  | .error e => (.error e, World.init)
  | .ok rb =>
    match env.parseURL (c.baseURL ++ endpoint) with
    | .error e => (.error e, World.init)
    | .ok u =>
      let req0 : Req := { method := method, url := u, header := [], body := rb.1 }
      let req := setRequestHeaders c env req0 method
      let handler := composeMiddleware c.middleware req (createHandler c env method req rb.2)
      let w := handler req World.init
      (.ok { statusCode := w.recorder.code, body := w.recorder.body,
             outputSet := c.hasOutput, request := w.snapshot.getD {} }, w)

/-- `Client.Get`. -/
def Client.Get (c : Client) (env : Env) (endpoint : String) : Except String Response × World :=
  doRequest c env "GET" endpoint none

/-- `Client.Delete`. -/
def Client.Delete (c : Client) (env : Env) (endpoint : String) : Except String Response × World :=
  doRequest c env "DELETE" endpoint none

/-- `Client.Post`. -/
def Client.Post (c : Client) (env : Env) (endpoint : String)
    (body : Option (Except String String)) : Except String Response × World :=
  doRequest c env "POST" endpoint body

/-- `Client.Put`. -/
def Client.Put (c : Client) (env : Env) (endpoint : String)
    (body : Option (Except String String)) : Except String Response × World :=
  doRequest c env "PUT" endpoint body

/-- `Client.Patch`. -/
def Client.Patch (c : Client) (env : Env) (endpoint : String)
    (body : Option (Except String String)) : Except String Response × World :=
  doRequest c env "PATCH" endpoint body

/-! ## The curl renderer -/

/-- The URL segment of the rendered command: the query string is appended
after a `?` only when the descriptor's `QueryParams` is non-empty. -/
def curlUrlSegment (r : Request) : String :=
  if r.queryParams.length > 0 then r.url ++ "?" ++ Values.encode r.queryParams else r.url

/-- The `-H` arguments, one per header value in iteration order; a
Content-Type value mentioning `boundary` is truncated at its first `;`. -/
def curlHeaderArgs (r : Request) : String :=
  r.headers.foldl (fun acc kv =>
    kv.2.foldl (fun acc v =>
      let v := if kv.1 = "Content-Type" ∧ strContains v "boundary" then
        (v.splitOn ";").headD v else v
      acc ++ " -H \"" ++ kv.1 ++ ": " ++ v ++ "\"") acc) ""

/-- The `-F "field=@path"` arguments for file-path inputs. -/
def curlFilePathArgs (l : List (String × String)) : String :=
  l.foldl (fun acc kp => acc ++ " -F \"" ++ kp.1 ++ "=@" ++ kp.2 ++ "\"") ""

/-- The `-F "field=value"` arguments for plain form fields. -/
def curlFieldArgs (l : List (String × String)) : String :=
  l.foldl (fun acc kv => acc ++ " -F \"" ++ kv.1 ++ "=" ++ kv.2 ++ "\"") ""

/-- The `-F "field=@name"` arguments for open form files; `none` when some
file fails the `NamedFile` assertion (the renderer then returns `""`). -/
def curlFormFileArgs : List (String × GoFile) → Option String
  | [] => some ""
  | kf :: t =>
    match kf.2.retrievableName with
    | none => none
    | some nm =>
      match curlFormFileArgs t with
      | none => none
      | some rest => some (" -F \"" ++ kf.1 ++ "=@" ++ nm ++ "\"" ++ rest)

/-- `Request.GenerateCurlCommand`. -/
def Request.GenerateCurlCommand (r : Request) : String :=
  let s := "curl"
  let s := if r.insecure then s ++ " -k" else s
  let s := s ++ " -X " ++ r.method ++ " \"" ++ curlUrlSegment r ++ "\""
  let s := s ++ curlHeaderArgs r
  if ((r.method = "POST" ∨ r.method = "PUT" ∨ r.method = "PATCH") ∧ r.body.length > 0)
      ∨ r.formFilePath.length > 0 ∨ r.formData.length > 0 ∨ r.formFile.length > 0 then
    let contentType := Header.get r.headers "Content-Type"
    if strContains contentType "multipart/form-data" then
      match curlFormFileArgs r.formFile with
      | none => ""
      | some ffArgs => s ++ curlFilePathArgs r.formFilePath ++ curlFieldArgs r.formData ++ ffArgs
    else
      s ++ " --data-raw '" ++ r.body ++ "'"
  else s

/-! ## Auxiliary definitions used by the theorems -/

/-- Whether an `Except` result is an error. -/
def isErr {α : Type} : Except String α → Bool
  | .error _ => true
  | .ok _ => false

/-- Whether a marshalling outcome is a JSON object or `null` — the shapes
`json.Unmarshal` accepts into a `map[string]interface\x7b\x7d`. -/
def flatOrNull : Except String Json → Bool
  | .ok (.obj _) => true
  | .ok .null => true
  | _ => false

/-- The byte values of a string, for stating case/validity side conditions
on header keys. -/
def keyBytes (s : String) : List Nat := s.data.map Char.toNat

/-- An instrumented interceptor that records an event before calling the
next handler and another after it returns — the shape of the two
interceptors in the ordering property. -/
def wrapMW (before after : String) : Middleware :=
  fun _req next => fun r w =>
    let w1 := { w with events := w.events ++ [before] }
    let w2 := next r w1
    { w2 with events := w2.events ++ [after] }

/-- The dispatch invariant for the snapshot: any snapshot ever written has
an empty `QueryParams` field. -/
def QPInv (w : World) : Prop := ∀ rq, w.snapshot = some rq → rq.queryParams = []

/-- A middleware that does not manufacture snapshots on its own — it can
only obtain snapshot changes by invoking the handler it wraps. Every Go
middleware satisfies this: the `request` variable is local to `doRequest`
and reachable only through the inner handler closure. -/
def SnapshotRespecting (m : Middleware) : Prop :=
  ∀ req next, (∀ r w, QPInv w → QPInv (next r w)) →
    ∀ r w, QPInv w → QPInv (m req next r w)

/-- An environment in which every collaborator succeeds. -/
def envOk : Env :=
  { fs := fun _ => .ok "data",
    parseURL := fun s => .ok { pre := s, rawQuery := "" },
    net := .ok { statusCode := 200, body := "hello" },
    decodeOutput := fun _ => .ok (),
    boundary := "B" }

/-! ## Multimap lemmas -/

theorem mmFind_mmSet_self (h : StrMultimap) (k : String) (vs : List String) :
    mmFind (mmSet h k vs) k = some vs := by
  induction h with
  | nil => simp [mmSet, mmFind]
  | cons kv t ih =>
    obtain ⟨k', vs'⟩ := kv
    by_cases hk : k' = k <;> simp [mmSet, mmFind, hk, ih]

theorem mmFind_mmSet_ne (h : StrMultimap) (k k' : String) (vs : List String)
    (hne : k' ≠ k) : mmFind (mmSet h k' vs) k = mmFind h k := by
  induction h with
  | nil => simp [mmSet, mmFind, hne]
  | cons kv t ih =>
    obtain ⟨k0, vs0⟩ := kv
    by_cases hk : k0 = k' <;> simp [mmSet, mmFind, hk, ih]
    · subst hk; simp [hne]

theorem mmFind_mmAdd (h : StrMultimap) (k k' v : String) :
    mmFind (mmAdd h k' v) k =
      if k' = k then some ((mmFind h k).getD [] ++ [v]) else mmFind h k := by
  induction h with
  | nil =>
    by_cases hk : k' = k <;> simp [mmAdd, mmFind, hk]
  | cons kv t ih =>
    obtain ⟨k0, vs0⟩ := kv
    by_cases h0 : k0 = k'
    · subst h0
      by_cases hk : k0 = k <;> simp [mmAdd, mmFind, hk]
    · by_cases hk : k0 = k
      · subst hk
        have : ¬ k' = k0 := fun hh => h0 hh.symm
        simp [mmAdd, mmFind, h0, this]
      · simp [mmAdd, mmFind, h0, hk, ih]

/-! ## Canonical-key lemmas -/

theorem canonStep_congr (u : Bool) (x y : Nat) (h : lowerNat x = lowerNat y) :
    canonStep u x = canonStep u y := by
  unfold lowerNat at h
  unfold canonStep
  split_ifs at h ⊢ <;> omega

theorem canonList_congr (u : Bool) (as bs : List Nat)
    (h : as.map lowerNat = bs.map lowerNat) : canonList u as = canonList u bs := by
  induction as generalizing u bs with
  | nil => cases bs <;> simp_all
  | cons a t ih =>
    cases bs with
    | nil => simp at h
    | cons b tb =>
      simp only [List.map_cons, List.cons.injEq] at h
      have hstep := canonStep_congr u a b h.1
      simp only [canonList, hstep]
      exact congrArg _ (ih _ _ h.2)

theorem validByte_congr (x y : Nat) (h : lowerNat x = lowerNat y) :
    validByte x = validByte y := by
  unfold validByte
  rw [decide_eq_decide]
  unfold lowerNat at h
  unfold validProp
  split_ifs at h <;> omega

theorem all_validByte_congr (as bs : List Nat) (h : as.map lowerNat = bs.map lowerNat) :
    as.all validByte = bs.all validByte := by
  induction as generalizing bs with
  | nil => cases bs <;> simp_all
  | cons a t ih =>
    cases bs with
    | nil => simp at h
    | cons b tb =>
      simp only [List.map_cons, List.cons.injEq] at h
      simp only [List.all_cons, validByte_congr a b h.1, ih _ h.2]

theorem canonicalKey_congr (s t : String)
    (hvalid : (keyBytes s).all validByte = true)
    (hcase : (keyBytes s).map lowerNat = (keyBytes t).map lowerNat) :
    canonicalKey s = canonicalKey t := by
  unfold keyBytes at hvalid hcase
  have hvt : (t.data.map Char.toNat).all validByte = true := by
    rw [← all_validByte_congr _ _ hcase]; exact hvalid
  simp only [canonicalKey, hvalid, hvt, if_true]
  rw [canonList_congr true _ _ hcase]

/-! ## Recorder and world lemmas -/

@[simp] theorem recWriteHeader_snapshot (w : World) (cd : Nat) :
    (recWriteHeader w cd).snapshot = w.snapshot := by
  unfold recWriteHeader; split <;> rfl

@[simp] theorem recWriteHeader_events (w : World) (cd : Nat) :
    (recWriteHeader w cd).events = w.events := by
  unfold recWriteHeader; split <;> rfl

@[simp] theorem recWriteHeader_hookStatuses (w : World) (cd : Nat) :
    (recWriteHeader w cd).hookStatuses = w.hookStatuses := by
  unfold recWriteHeader; split <;> rfl

@[simp] theorem recWriteHeader_netCalls (w : World) (cd : Nat) :
    (recWriteHeader w cd).netCalls = w.netCalls := by
  unfold recWriteHeader; split <;> rfl

@[simp] theorem recWriteHeader_body (w : World) (cd : Nat) :
    (recWriteHeader w cd).recorder.body = w.recorder.body := by
  unfold recWriteHeader; split <;> rfl

theorem recWriteHeader_code_of_new (w : World) (cd : Nat)
    (h : w.recorder.wroteHeader = false) : (recWriteHeader w cd).recorder.code = cd := by
  unfold recWriteHeader; rw [h]; simp

theorem recWriteHeader_wrote_of_new (w : World) (cd : Nat)
    (h : w.recorder.wroteHeader = false) : (recWriteHeader w cd).recorder.wroteHeader = true := by
  unfold recWriteHeader; rw [h]; simp

theorem recWriteHeader_code_of_wrote (w : World) (cd : Nat)
    (h : w.recorder.wroteHeader = true) : (recWriteHeader w cd).recorder.code = w.recorder.code := by
  unfold recWriteHeader; rw [h]; simp

@[simp] theorem recWrite_snapshot (w : World) (s : String) :
    (recWrite w s).snapshot = w.snapshot := by
  unfold recWrite; simp

@[simp] theorem recWrite_events (w : World) (s : String) :
    (recWrite w s).events = w.events := by
  unfold recWrite; simp

@[simp] theorem recWrite_hookStatuses (w : World) (s : String) :
    (recWrite w s).hookStatuses = w.hookStatuses := by
  unfold recWrite; simp

@[simp] theorem recWrite_netCalls (w : World) (s : String) :
    (recWrite w s).netCalls = w.netCalls := by
  unfold recWrite; simp

@[simp] theorem recWrite_body (w : World) (s : String) :
    (recWrite w s).recorder.body = w.recorder.body ++ s := by
  unfold recWrite; simp

theorem recWrite_code_of_wrote (w : World) (s : String)
    (h : w.recorder.wroteHeader = true) : (recWrite w s).recorder.code = w.recorder.code := by
  unfold recWrite; simp [recWriteHeader_code_of_wrote _ _ h]

@[simp] theorem httpError_snapshot (w : World) (msg : String) (cd : Nat) :
    (httpError w msg cd).snapshot = w.snapshot := by
  unfold httpError; simp

@[simp] theorem httpError_events (w : World) (msg : String) (cd : Nat) :
    (httpError w msg cd).events = w.events := by
  unfold httpError; simp

@[simp] theorem httpError_hookStatuses (w : World) (msg : String) (cd : Nat) :
    (httpError w msg cd).hookStatuses = w.hookStatuses := by
  unfold httpError; simp

@[simp] theorem httpError_netCalls (w : World) (msg : String) (cd : Nat) :
    (httpError w msg cd).netCalls = w.netCalls := by
  unfold httpError; simp

@[simp] theorem httpError_body (w : World) (msg : String) (cd : Nat) :
    (httpError w msg cd).recorder.body = w.recorder.body ++ (msg ++ "\n") := by
  unfold httpError; simp

theorem httpError_code_of_new (w : World) (msg : String) (cd : Nat)
    (h : w.recorder.wroteHeader = false) : (httpError w msg cd).recorder.code = cd := by
  unfold httpError
  rw [recWrite_code_of_wrote _ _ (recWriteHeader_wrote_of_new _ _ h)]
  exact recWriteHeader_code_of_new _ _ h

/-! ## Case lemmas for the inner handler -/

theorem createHandler_events (c : Client) (env : Env) (m : String) (req : Req) (jb : String)
    (r : Req) (w : World) :
    (createHandler c env m req jb r w).events = w.events ++ ["net"] := by
  cases hnet : env.net with
  | error e => simp [createHandler, hnet]
  | ok resp =>
    cases hstream : c.stream with
    | none =>
      cases hdec : (if c.hasOutput then env.decodeOutput resp.body else Except.ok ()) with
      | error e => simp [createHandler, hnet, hstream, hdec]
      | ok u => simp [createHandler, hnet, hstream, hdec]
    | some f =>
      cases hs1 : (f resp).1 with
      | error e => simp [createHandler, hnet, hstream, hs1]
      | ok u =>
        cases hdec : (if c.hasOutput then env.decodeOutput (f resp).2 else Except.ok ()) with
        | error e => simp [createHandler, hnet, hstream, hs1, hdec]
        | ok u2 => simp [createHandler, hnet, hstream, hs1, hdec]

theorem createHandler_QPInv (c : Client) (env : Env) (m : String) (req : Req) (jb : String)
    (r : Req) (w : World) (hw : QPInv w) :
    QPInv (createHandler c env m req jb r w) := by
  cases hnet : env.net with
  | error e =>
    intro rq hrq; simp [createHandler, hnet] at hrq; exact hw rq hrq
  | ok resp =>
    cases hstream : c.stream with
    | none =>
      cases hdec : (if c.hasOutput then env.decodeOutput resp.body else Except.ok ()) with
      | error e =>
        intro rq hrq; simp [createHandler, hnet, hstream, hdec] at hrq; exact hw rq hrq
      | ok u =>
        intro rq hrq; simp [createHandler, hnet, hstream, hdec] at hrq; subst hrq; rfl
    | some f =>
      cases hs1 : (f resp).1 with
      | error e =>
        intro rq hrq; simp [createHandler, hnet, hstream, hs1] at hrq; exact hw rq hrq
      | ok u =>
        cases hdec : (if c.hasOutput then env.decodeOutput (f resp).2 else Except.ok ()) with
        | error e =>
          intro rq hrq; simp [createHandler, hnet, hstream, hs1, hdec] at hrq; exact hw rq hrq
        | ok u2 =>
          intro rq hrq; simp [createHandler, hnet, hstream, hs1, hdec] at hrq; subst hrq; rfl

theorem createHandler_of_snapshot (c : Client) (env : Env) (m : String) (req : Req) (jb : String)
    (r : Req) (w : World) (hw0 : w.recorder.wroteHeader = false) (hsnap : w.snapshot = none)
    (h : ((createHandler c env m req jb r w).snapshot).isSome = true) :
    ∃ resp, env.net = Except.ok resp ∧
      (createHandler c env m req jb r w).snapshot = some (snapOf c m req jb) ∧
      (createHandler c env m req jb r w).hookStatuses =
        w.hookStatuses ++ List.replicate c.hooks resp.statusCode ∧
      (createHandler c env m req jb r w).recorder.code = resp.statusCode := by
  cases hnet : env.net with
  | error e => simp [createHandler, hnet, hsnap] at h
  | ok resp =>
    refine ⟨resp, rfl, ?_⟩
    cases hstream : c.stream with
    | none =>
      cases hdec : (if c.hasOutput then env.decodeOutput resp.body else Except.ok ()) with
      | error e => simp [createHandler, hnet, hstream, hdec, hsnap] at h
      | ok u =>
        refine ⟨by simp [createHandler, hnet, hstream, hdec], by simp [createHandler, hnet, hstream, hdec], ?_⟩
        simp only [createHandler, hnet, hstream, hdec]
        rw [recWrite_code_of_wrote, recWriteHeader_code_of_new]
        · exact hw0
        · exact recWriteHeader_wrote_of_new _ _ hw0
    | some f =>
      cases hs1 : (f resp).1 with
      | error e => simp [createHandler, hnet, hstream, hs1, hsnap] at h
      | ok u =>
        cases hdec : (if c.hasOutput then env.decodeOutput (f resp).2 else Except.ok ()) with
        | error e => simp [createHandler, hnet, hstream, hs1, hdec, hsnap] at h
        | ok u2 =>
          refine ⟨by simp [createHandler, hnet, hstream, hs1, hdec],
                  by simp [createHandler, hnet, hstream, hs1, hdec], ?_⟩
          simp only [createHandler, hnet, hstream, hs1, hdec]
          rw [recWrite_code_of_wrote, recWriteHeader_code_of_new]
          · exact hw0
          · exact recWriteHeader_wrote_of_new _ _ hw0

theorem createHandler_net_error (c : Client) (env : Env) (m : String) (req : Req) (jb : String)
    (r : Req) (w : World) (hw0 : w.recorder.wroteHeader = false)
    (e : String) (hnet : env.net = Except.error e) :
    (createHandler c env m req jb r w).recorder.code = 500 ∧
    (createHandler c env m req jb r w).recorder.body = w.recorder.body ++ (e ++ "\n") ∧
    (createHandler c env m req jb r w).snapshot = w.snapshot ∧
    (createHandler c env m req jb r w).hookStatuses = w.hookStatuses := by
  refine ⟨?_, by simp [createHandler, hnet], by simp [createHandler, hnet],
          by simp [createHandler, hnet]⟩
  simp only [createHandler, hnet]
  exact httpError_code_of_new _ _ _ hw0

theorem createHandler_decode_error (c : Client) (env : Env) (m : String) (req : Req) (jb : String)
    (r : Req) (w : World) (hw0 : w.recorder.wroteHeader = false)
    (resp : TranspResp) (e : String)
    (hnet : env.net = Except.ok resp) (hstream : c.stream = none) (hout : c.hasOutput = true)
    (hdec : env.decodeOutput resp.body = Except.error e) :
    (createHandler c env m req jb r w).recorder.code = 500 ∧
    (createHandler c env m req jb r w).recorder.body = w.recorder.body ++ (e ++ "\n") ∧
    (createHandler c env m req jb r w).snapshot = w.snapshot ∧
    (createHandler c env m req jb r w).hookStatuses =
      w.hookStatuses ++ List.replicate c.hooks resp.statusCode := by
  refine ⟨?_, by simp [createHandler, hnet, hstream, hout, hdec],
          by simp [createHandler, hnet, hstream, hout, hdec],
          by simp [createHandler, hnet, hstream, hout, hdec]⟩
  simp only [createHandler, hnet, hstream, hout, if_true, hdec]
  exact httpError_code_of_new _ _ _ hw0

/-! ## Form-encoding error lemmas -/

theorem exMapM_isErr {α β : Type} (f : α → Except String β) (l : List α) (x : α)
    (hx : x ∈ l) (hf : isErr (f x) = true) : isErr (exMapM f l) = true := by
  induction l with
  | nil => cases hx
  | cons a t ih =>
    rcases List.mem_cons.mp hx with rfl | hxt
    · cases hfa : f x with
      | error e => simp [exMapM, hfa, isErr]
      | ok y => rw [hfa] at hf; simp [isErr] at hf
    · cases hfa : f a with
      | error e => simp [exMapM, hfa, isErr]
      | ok y =>
        have hrec := ih hxt
        cases hx2 : exMapM f t with
        | error e => simp [exMapM, hfa, hx2, isErr]
        | ok ys => rw [hx2] at hrec; simp [isErr] at hrec

theorem openFilePart_isErr (env : Env) (kp : String × String)
    (h : isErr (env.fs kp.2) = true) : isErr (openFilePart env kp) = true := by
  cases hfs : env.fs kp.2 with
  | error e => simp [openFilePart, hfs, isErr]
  | ok content => rw [hfs] at h; simp [isErr] at h

theorem openFormFilePart_isErr (kf : String × GoFile) (h : kf.2.osFile = none) :
    isErr (openFormFilePart kf) = true := by
  simp [openFormFilePart, h, isErr]

theorem writeFormData_isErr_filePath (c : Client) (env : Env) (kp : String × String)
    (hmem : kp ∈ c.formFilePath) (hfs : isErr (env.fs kp.2) = true) :
    isErr (writeFormData c env) = true := by
  have h1 := exMapM_isErr (openFilePart env) c.formFilePath kp hmem (openFilePart_isErr env kp hfs)
  cases hx : exMapM (openFilePart env) c.formFilePath with
  | error e => simp [writeFormData, hx, isErr]
  | ok l => rw [hx] at h1; simp [isErr] at h1

theorem writeFormData_isErr_formFile (c : Client) (env : Env) (kf : String × GoFile)
    (hmem : kf ∈ c.formFile) (hos : kf.2.osFile = none) :
    isErr (writeFormData c env) = true := by
  cases hx : exMapM (openFilePart env) c.formFilePath with
  | error e => simp [writeFormData, hx, isErr]
  | ok l =>
    have h2 := exMapM_isErr openFormFilePart c.formFile kf hmem (openFormFilePart_isErr kf hos)
    cases hy : exMapM openFormFilePart c.formFile with
    | error e => simp [writeFormData, hx, hy, isErr]
    | ok l2 => rw [hy] at h2; simp [isErr] at h2

theorem doRequest_err_of_forms (c : Client) (env : Env) (m ep : String)
    (body : Option (Except String String)) (hforms : multipartActive c = true)
    (hwf : isErr (writeFormData c env) = true) :
    (∃ e, (doRequest c env m ep body).1 = Except.error e) ∧
    (doRequest c env m ep body).2 = World.init := by
  cases hw : writeFormData c env with
  | error e =>
    have hp : prepareRequestBody c env body = .error e := by
      simp [prepareRequestBody, hforms, hw]
    exact ⟨⟨e, by simp [doRequest, hp]⟩, by simp [doRequest, hp]⟩
  | ok l => rw [hw] at hwf; simp [isErr] at hwf

/-! ## Header-assembly lemmas -/

theorem mmFind_head_mmAdd (h : StrMultimap) (k k2 u v : String) (tl : List String)
    (hf : mmFind h k = some (v :: tl)) :
    ∃ tl2, mmFind (mmAdd h k2 u) k = some (v :: tl2) := by
  rw [mmFind_mmAdd]
  by_cases hk : k2 = k
  · simp only [hk, if_true, hf, Option.getD_some, if_pos rfl]
    exact ⟨tl ++ [u], by simp⟩
  · simp only [if_neg hk]
    exact ⟨tl, hf⟩

theorem head_addValues (k2 : String) (vs : List String) (h : StrMultimap) (k v : String)
    (hf : ∃ tl, mmFind h k = some (v :: tl)) :
    ∃ tl, mmFind (addValues k2 vs h) k = some (v :: tl) := by
  induction vs generalizing h with
  | nil => exact hf
  | cons u t ih =>
    obtain ⟨tl, hf⟩ := hf
    exact ih _ (mmFind_head_mmAdd h k (canonicalKey k2) u v tl hf)

theorem head_addAllValues (entries : List (String × List String)) (h : StrMultimap)
    (k v : String) (hf : ∃ tl, mmFind h k = some (v :: tl)) :
    ∃ tl, mmFind (addAllValues entries h) k = some (v :: tl) := by
  induction entries generalizing h with
  | nil => exact hf
  | cons kv rest ih => exact ih _ (head_addValues kv.1 kv.2 h k v hf)

theorem get_after_assembly (entries : List (String × List String)) (h0 : StrMultimap)
    (K mct : String) :
    Header.get (addAllValues entries (mmSet h0 (canonicalKey K) [mct])) K = mct := by
  obtain ⟨tl, htl⟩ := head_addAllValues entries (mmSet h0 (canonicalKey K) [mct])
    (canonicalKey K) mct ⟨[], mmFind_mmSet_self h0 (canonicalKey K) [mct]⟩
  unfold Header.get
  rw [htl]

theorem mem_mmAdd (h : StrMultimap) (k k2 u v : String)
    (hv : v ∈ (mmFind h k).getD []) : v ∈ (mmFind (mmAdd h k2 u) k).getD [] := by
  rw [mmFind_mmAdd]
  by_cases hk : k2 = k
  · simp only [hk, if_pos rfl, Option.getD_some]
    exact List.mem_append_left _ hv
  · simp only [if_neg hk]
    exact hv

theorem mem_mmAdd_self (h : StrMultimap) (k v : String) :
    v ∈ (mmFind (mmAdd h k v) k).getD [] := by
  rw [mmFind_mmAdd]
  simp

theorem mem_preserved_addValues (k2 : String) (vs : List String) (h : StrMultimap)
    (K v : String) (hv : v ∈ (mmFind h K).getD []) :
    v ∈ (mmFind (addValues k2 vs h) K).getD [] := by
  induction vs generalizing h with
  | nil => exact hv
  | cons u t ih => exact ih _ (mem_mmAdd h K (canonicalKey k2) u v hv)

theorem mem_preserved_addAll (entries : List (String × List String)) (h : StrMultimap)
    (K v : String) (hv : v ∈ (mmFind h K).getD []) :
    v ∈ (mmFind (addAllValues entries h) K).getD [] := by
  induction entries generalizing h with
  | nil => exact hv
  | cons kv rest ih => exact ih _ (mem_preserved_addValues kv.1 kv.2 h K v hv)

theorem mem_addValues_of_mem (k : String) (vs : List String) (h : StrMultimap) (v : String)
    (hv : v ∈ vs) : v ∈ (mmFind (addValues k vs h) (canonicalKey k)).getD [] := by
  induction vs generalizing h with
  | nil => cases hv
  | cons u t ih =>
    rcases List.mem_cons.mp hv with rfl | hvt
    · exact mem_preserved_addValues k t _ _ v (mem_mmAdd_self h (canonicalKey k) v)
    · exact ih (Header.add h k u) hvt

theorem mem_addAll_of_entry (entries : List (String × List String)) (h : StrMultimap)
    (K v : String) (hK : canonicalKey K = K)
    (hv : v ∈ (mmFind entries K).getD []) :
    v ∈ (mmFind (addAllValues entries h) K).getD [] := by
  induction entries generalizing h with
  | nil => simp [mmFind] at hv
  | cons kv rest ih =>
    obtain ⟨k0, vs0⟩ := kv
    by_cases hk : k0 = K
    · subst hk
      have hv0 : v ∈ vs0 := by simpa [mmFind] using hv
      show v ∈ (mmFind (addAllValues rest (addValues k0 vs0 h)) k0).getD []
      refine mem_preserved_addAll rest (addValues k0 vs0 h) k0 v ?_
      have := mem_addValues_of_mem k0 vs0 h v hv0
      rwa [hK] at this
    · have hv' : v ∈ (mmFind rest K).getD [] := by simpa [mmFind, hk] using hv
      exact ih (addValues k0 vs0 h) hv'

/-! ## Query-parameter fold lemmas -/

theorem vget_set_self (q : StrMultimap) (k v : String) :
    Values.get (Values.set q k v) k = v := by
  unfold Values.get Values.set
  rw [mmFind_mmSet_self]

theorem vget_fold_not_mem (fields : List (String × Json)) (q : StrMultimap) (k : String)
    (hk : ¬ k ∈ fields.map Prod.fst) :
    Values.get (fields.foldl (fun q kv => Values.set q kv.1 (goStringify kv.2)) q) k =
      Values.get q k := by
  induction fields generalizing q with
  | nil => rfl
  | cons kv t ih =>
    simp only [List.map_cons, List.mem_cons, not_or] at hk
    rw [List.foldl_cons, ih _ hk.2]
    unfold Values.get Values.set
    rw [mmFind_mmSet_ne _ _ _ _ (Ne.symm hk.1)]

theorem vget_foldSet_mem (fields : List (String × Json)) (q : StrMultimap) (k : String)
    (v : Json) (hnd : (fields.map Prod.fst).Nodup) (hmem : (k, v) ∈ fields) :
    Values.get (fields.foldl (fun q kv => Values.set q kv.1 (goStringify kv.2)) q) k =
      goStringify v := by
  induction fields generalizing q with
  | nil => cases hmem
  | cons kv t ih =>
    obtain ⟨k0, v0⟩ := kv
    simp only [List.map_cons, List.nodup_cons] at hnd
    rcases List.mem_cons.mp hmem with heq | hmemT
    · obtain ⟨hk, hv⟩ := Prod.mk.injEq .. ▸ heq
      cases heq
      rw [List.foldl_cons, vget_fold_not_mem t _ k hnd.1, vget_set_self]
    · exact List.foldl_cons .. ▸ ih _ hnd.2 hmemT

/-! ## Claims -/

/-- C2: for a dispatch with two registered interceptors A (first) and B
(second), composition folds over the registered list in reverse
registration order — `composeMiddleware [A, B]` makes A the outermost
wrapper — and the observed execution order around the network call is
A-before, B-before, network call, B-after, A-after. -/
theorem claim_interceptor_order :
    (∀ (A B : Middleware) (req : Req) (base : HandlerFunc),
      composeMiddleware [A, B] req base = A req (composeMiddleware [B] req base)) ∧
    (∀ (a1 a2 b1 b2 : String) (c : Client) (env : Env) (m ep : String)
      (body : Option (Except String String)) (rb : ReqBody × String) (u : ParsedURL),
      c.middleware = [wrapMW a1 a2, wrapMW b1 b2] →
      prepareRequestBody c env body = Except.ok rb →
      env.parseURL (c.baseURL ++ ep) = Except.ok u →
      (doRequest c env m ep body).2.events = [a1, b1, "net", b2, a2]) := by
  constructor
  · intro A B req base
    rfl
  · intro a1 a2 b1 b2 c env m ep body rb u hmw hprep hurl
    simp only [doRequest, hprep, hurl, hmw, composeMiddleware, List.foldr, wrapMW]
    simp [createHandler_events, World.init]

/-- Witness for C2: a concrete dispatch through two logging interceptors
produces exactly the claimed event order. -/
theorem claim_interceptor_order_witness :
    (doRequest { middleware := [wrapMW "A:before" "A:after", wrapMW "B:before" "B:after"] }
        envOk "GET" "/x" none).2.events
      = ["A:before", "B:before", "net", "B:after", "A:after"] :=
  claim_interceptor_order.2 "A:before" "A:after" "B:before" "B:after"
    { middleware := [wrapMW "A:before" "A:after", wrapMW "B:before" "B:after"] }
    envOk "GET" "/x" none (ReqBody.empty, "") { pre := "/x", rawQuery := "" } rfl rfl rfl

/-- C3: whenever any form input is present, the request body is built by
the multipart form encoder and JSON body construction is skipped entirely
— the body argument (even a non-nil or unserialisable one) does not appear
on the right-hand side. -/
theorem claim_multipart_wins (c : Client) (env : Env) (body : Option (Except String String))
    (hforms : multipartActive c = true) :
    prepareRequestBody c env body =
      (match writeFormData c env with
       | .error e => Except.error e
       | .ok parts => Except.ok (ReqBody.multipart parts, "")) := by
  simp only [prepareRequestBody, hforms, if_true]

/-- Witness for C3: with a form field present and a non-nil JSON body
argument supplied, the prepared body is multipart and the JSON body is
dropped. -/
theorem claim_multipart_wins_witness :
    prepareRequestBody { formData := [("field1", "value1")] } envOk
        (some (Except.ok "\x7b\"k\":1\x7d")) =
      Except.ok (ReqBody.multipart [Part.fieldPart "field1" "value1"], "") := by
  rw [claim_multipart_wins { formData := [("field1", "value1")] } envOk
    (some (Except.ok "\x7b\"k\":1\x7d")) rfl]
  rfl

/-- C5: the curl renderer reproduces the documented command exactly on the
reference descriptor, and prefixing `-k` after `curl` is the only change
when the insecure flag is set. -/
theorem claim_curl_vector :
    Request.GenerateCurlCommand
      { method := "POST", url := "http://example.com/api",
        headers := [("Content-Type", ["application/json"])],
        body := "\x7b\"key\":\"value\"\x7d",
        queryParams := [("param1", ["value1"]), ("param2", ["value2"])] } =
      "curl -X POST \"http://example.com/api?param1=value1&param2=value2\" -H \"Content-Type: application/json\" --data-raw '\x7b\"key\":\"value\"\x7d'" ∧
    Request.GenerateCurlCommand
      { method := "POST", url := "http://example.com/api",
        headers := [("Content-Type", ["application/json"])],
        body := "\x7b\"key\":\"value\"\x7d",
        queryParams := [("param1", ["value1"]), ("param2", ["value2"])],
        insecure := true } =
      "curl -k -X POST \"http://example.com/api?param1=value1&param2=value2\" -H \"Content-Type: application/json\" --data-raw '\x7b\"key\":\"value\"\x7d'" := by
  exact ⟨rfl, rfl⟩

/-- C4 counterexample: an input that marshals to a JSON array (not a flat
object) does not make the operation report a recoverable error — it takes
the `log.Fatalf` path, which terminates the process, contradicting the
claim that the operation does not crash the process. -/
theorem claim_qp_interface_counterexample :
    (Client.SetQueryParamFromInterface {} (Except.ok (Json.arr []))).isFatal = true := rfl

/-- C4 (amended): for every input whose marshalling outcome is not a flat
JSON object (or `null`), `SetQueryParamFromInterface` terminates the
process through `log.Fatalf` instead of reporting an error; for inputs
that do marshal to a JSON object, each key is set as a query parameter
with its `%v`-stringified value. -/
theorem claim_qp_interface_amended :
    (∀ (c : Client) (m : Except String Json), flatOrNull m = false →
      (Client.SetQueryParamFromInterface c m).isFatal = true) ∧
    (∀ (c : Client) (fields : List (String × Json)) (k : String) (v : Json),
      (fields.map Prod.fst).Nodup → (k, v) ∈ fields →
      ∃ c', Client.SetQueryParamFromInterface c (Except.ok (Json.obj fields)) =
          SetQPOutcome.ok c' ∧
        Values.get c'.queryParams k = goStringify v) := by
  constructor
  · intro c m hm
    cases m with
    | error e => rfl
    | ok j =>
      cases j with
      | obj fs => simp [flatOrNull] at hm
      | null => simp [flatOrNull] at hm
      | str s => rfl
      | num n => rfl
      | bool b => rfl
      | arr xs => rfl
  · intro c fields k v hnd hmem
    exact ⟨_, rfl, vget_foldSet_mem fields c.queryParams k v hnd hmem⟩

/-- Witness for C4 (amended): a string input is fatal; a two-field object
sets both keys, with the integer stringified in decimal. -/
theorem claim_qp_interface_amended_witness :
    (Client.SetQueryParamFromInterface {} (Except.ok (Json.str "s"))).isFatal = true ∧
    ∃ c', Client.SetQueryParamFromInterface {}
        (Except.ok (Json.obj [("key1", Json.str "value1"), ("key2", Json.num 2)])) =
        SetQPOutcome.ok c' ∧
      Values.get c'.queryParams "key2" = "2" := by
  constructor
  · exact claim_qp_interface_amended.1 {} _ rfl
  · obtain ⟨c', h1, h2⟩ := claim_qp_interface_amended.2 {}
      [("key1", Json.str "value1"), ("key2", Json.num 2)] "key2" (Json.num 2)
      (by decide) (by simp)
    exact ⟨c', h1, by rw [h2]; rfl⟩

/-- C6 counterexample: for the key `"k y"` — which contains a byte that is
not a valid header-field byte, so `CanonicalMIMEHeaderKey` leaves it
unchanged — looking up the casing variation `"K Y"` after
`SetHeader("k y", "v")` yields `""`, not `"v"`, refuting the claim for
arbitrary keys. -/
theorem claim_setheader_counterexample :
    Header.get (Client.SetHeader {} "k y" "v").headers "K Y" = "" ∧
    (keyBytes "k y").map lowerNat = (keyBytes "K Y").map lowerNat ∧
    "" ≠ "v" := by
  refine ⟨by decide, by decide, by decide⟩

/-- C6 (amended): after `SetHeader(K, V)`, looking up K itself returns
exactly V for every key and regardless of prior values (last write wins);
lookups under casing variations of K also return V provided K consists of
valid header-field bytes (keys containing invalid bytes are stored
uncanonicalised, so only the identical spelling finds them). -/
theorem claim_setheader_amended :
    (∀ (c : Client) (k v : String), Header.get (Client.SetHeader c k v).headers k = v) ∧
    (∀ (c : Client) (k k' v : String),
      (keyBytes k).all validByte = true →
      (keyBytes k).map lowerNat = (keyBytes k').map lowerNat →
      Header.get (Client.SetHeader c k v).headers k' = v) := by
  constructor
  · intro c k v
    unfold Header.get Client.SetHeader Header.set
    rw [mmFind_mmSet_self]
  · intro c k k' v hvalid hcase
    unfold Header.get Client.SetHeader Header.set
    rw [← canonicalKey_congr k k' hvalid hcase, mmFind_mmSet_self]

/-- Witness for C6 (amended): a case-variant lookup on a valid key finds
the last value written over a prior one, and an arbitrary key finds its
own value. -/
theorem claim_setheader_amended_witness :
    Header.get (Client.SetHeader { headers := [("Content-Type", ["old"])] }
        "content-type" "application/json").headers "CONTENT-TYPE" = "application/json" ∧
    Header.get (Client.SetHeader {} "X-Token" "t").headers "X-Token" = "t" :=
  ⟨claim_setheader_amended.2 { headers := [("Content-Type", ["old"])] }
      "content-type" "CONTENT-TYPE" "application/json" (by decide) (by decide),
    claim_setheader_amended.1 {} "X-Token" "t"⟩

/-- C7: whenever a configured form file path cannot be opened or read, or
an open-form-file entry is not an `*os.File` (hence exposes no retrievable
name), the dispatch returns an explicit error (so no Response) and the
network transport is never consulted. -/
theorem claim_form_failure_aborts (c : Client) (env : Env) (m ep : String)
    (body : Option (Except String String))
    (hfail : (∃ kp ∈ c.formFilePath, isErr (env.fs kp.2) = true) ∨
             (∃ kf ∈ c.formFile, kf.2.osFile = none)) :
    (∃ e, (doRequest c env m ep body).1 = Except.error e) ∧
    (doRequest c env m ep body).2.netCalls = 0 := by
  have hforms : multipartActive c = true := by
    simp only [multipartActive, Bool.or_eq_true, decide_eq_true_eq]
    rcases hfail with ⟨kp, hkp, _⟩ | ⟨kf, hkf, _⟩
    · exact Or.inl (Or.inl (List.length_pos.mpr (List.ne_nil_of_mem hkp)))
    · exact Or.inr (List.length_pos.mpr (List.ne_nil_of_mem hkf))
  have hwf : isErr (writeFormData c env) = true := by
    rcases hfail with ⟨kp, hkp, hkperr⟩ | ⟨kf, hkf, hkfos⟩
    · exact writeFormData_isErr_filePath c env kp hkp hkperr
    · exact writeFormData_isErr_formFile c env kf hkf hkfos
  obtain ⟨he, hw⟩ := doRequest_err_of_forms c env m ep body hforms hwf
  exact ⟨he, by rw [hw]; rfl⟩

/-- Witness for C7: a single unreadable file path aborts a POST with an
error and zero transport consultations. -/
theorem claim_form_failure_aborts_witness :
    (∃ e, (doRequest { formFilePath := [("file1", "/nope.txt")] }
        { envOk with fs := fun _ => Except.error "open /nope.txt: no such file" }
        "POST" "/upload" none).1 = Except.error e) ∧
    (doRequest { formFilePath := [("file1", "/nope.txt")] }
        { envOk with fs := fun _ => Except.error "open /nope.txt: no such file" }
        "POST" "/upload" none).2.netCalls = 0 :=
  claim_form_failure_aborts _ _ "POST" "/upload" none
    (Or.inl ⟨("file1", "/nope.txt"), by simp, rfl⟩)

/-- With multipart inputs present, the assembled request header is the
additive merge of the configured headers over a map whose Content-Type
entry was just replaced by the multipart value. -/
theorem setRequestHeaders_header_of_multipart (c : Client) (env : Env) (req : Req) (m : String)
    (hforms : multipartActive c = true) :
    ∃ h0, (setRequestHeaders c env req m).header =
      addAllValues c.headers
        (mmSet h0 (canonicalKey "Content-Type") [FormDataContentType env.boundary]) := by
  unfold setRequestHeaders addHeaders
  simp only [hforms, if_true]
  split
  · exact ⟨_, rfl⟩
  · split
    · split
      · exact ⟨_, rfl⟩
      · exact ⟨_, rfl⟩
    · exact ⟨_, rfl⟩

/-- C8 counterexample: with a configured `Content-Type: application/json`
and a form field present, the assembled request carries BOTH values — the
multipart one first and the previously configured one after it — so a
previously configured Content-Type value does remain attached to the
request, refuting the claim. -/
theorem claim_multipart_ct_counterexample :
    Header.values (setRequestHeaders
        { headers := [("Content-Type", ["application/json"])],
          formData := [("field1", "value1")] }
        { envOk with boundary := "XYZ" }
        { method := "POST", url := { pre := "http://x/u", rawQuery := "" },
          header := [], body := ReqBody.multipart [] }
        "POST").header "Content-Type"
      = ["multipart/form-data; boundary=XYZ", "application/json"] := by decide

/-- C8 (amended): with multipart inputs present, the multipart
Content-Type (with boundary parameter) is set as the request's
Content-Type, so header lookup (`Get`) returns it regardless of any
previously configured value; but the additive header merge afterwards
re-attaches every configured Content-Type value after it, so previously
configured values remain attached to the request as additional values. -/
theorem claim_multipart_ct (c : Client) (env : Env) (req : Req) (m : String)
    (hforms : multipartActive c = true) :
    Header.get (setRequestHeaders c env req m).header "Content-Type" =
      FormDataContentType env.boundary ∧
    ∀ v ∈ Header.values c.headers "Content-Type",
      v ∈ Header.values (setRequestHeaders c env req m).header "Content-Type" := by
  obtain ⟨h0, hh⟩ := setRequestHeaders_header_of_multipart c env req m hforms
  have hK : canonicalKey "Content-Type" = "Content-Type" := rfl
  constructor
  · rw [hh]
    exact get_after_assembly c.headers h0 "Content-Type" (FormDataContentType env.boundary)
  · intro v hv
    rw [hh]
    unfold Header.values at hv ⊢
    rw [hK] at hv ⊢
    exact mem_addAll_of_entry c.headers _ "Content-Type" v hK hv

/-- Witness for C8 (amended): concrete client with a configured JSON
Content-Type and one form field — lookup returns the multipart value, and
the configured value is still attached. -/
theorem claim_multipart_ct_witness :
    Header.get (setRequestHeaders
        { headers := [("Content-Type", ["application/json"])],
          formData := [("field1", "value1")] }
        { envOk with boundary := "XYZ" }
        { method := "POST", url := { pre := "http://x/u", rawQuery := "" },
          header := [], body := ReqBody.multipart [] }
        "POST").header "Content-Type" = "multipart/form-data; boundary=XYZ" ∧
    "application/json" ∈ Header.values (setRequestHeaders
        { headers := [("Content-Type", ["application/json"])],
          formData := [("field1", "value1")] }
        { envOk with boundary := "XYZ" }
        { method := "POST", url := { pre := "http://x/u", rawQuery := "" },
          header := [], body := ReqBody.multipart [] }
        "POST").header "Content-Type" := by
  obtain ⟨h1, h2⟩ := claim_multipart_ct
    { headers := [("Content-Type", ["application/json"])], formData := [("field1", "value1")] }
    { envOk with boundary := "XYZ" }
    { method := "POST", url := { pre := "http://x/u", rawQuery := "" },
      header := [], body := ReqBody.multipart [] }
    "POST" rfl
  exact ⟨h1, h2 "application/json" (by decide)⟩

/-- Successful preparation and URL parsing with no middleware reduce a
dispatch to one run of the inner handler against a fresh recorder. -/
theorem doRequest_run (c : Client) (env : Env) (m ep : String)
    (body : Option (Except String String)) (rb : ReqBody × String) (u : ParsedURL)
    (hmw : c.middleware = [])
    (hprep : prepareRequestBody c env body = Except.ok rb)
    (hurl : env.parseURL (c.baseURL ++ ep) = Except.ok u) :
    doRequest c env m ep body =
      (let req := setRequestHeaders c env
        { method := m, url := u, header := [], body := rb.1 } m
       let w := createHandler c env m req rb.2 req World.init
       (Except.ok { statusCode := w.recorder.code, body := w.recorder.body,
                    outputSet := c.hasOutput, request := w.snapshot.getD {} }, w)) := by
  simp only [doRequest, hprep, hurl, hmw, composeMiddleware, List.foldr]

/-- C9 counterexample: a dispatch whose output decoding fails completes
without a returned error, yet the registered hook observed status 200
while the returned Response carries status 500 — refuting the claim that
hooks always observe the returned status on error-free dispatches. -/
theorem claim_hooks_status_counterexample :
    (doRequest { baseURL := "http://x", hasOutput := true, hooks := 1 }
        { fs := fun _ => Except.error "nofs",
          parseURL := fun s => Except.ok { pre := s, rawQuery := "" },
          net := Except.ok { statusCode := 200, body := "notjson" },
          decodeOutput := fun _ => Except.error "invalid JSON",
          boundary := "B" } "GET" "/a" none).2.hookStatuses = [200] ∧
    ∃ r, (doRequest { baseURL := "http://x", hasOutput := true, hooks := 1 }
        { fs := fun _ => Except.error "nofs",
          parseURL := fun s => Except.ok { pre := s, rawQuery := "" },
          net := Except.ok { statusCode := 200, body := "notjson" },
          decodeOutput := fun _ => Except.error "invalid JSON",
          boundary := "B" } "GET" "/a" none).1 = Except.ok r ∧ r.statusCode = 500 :=
  ⟨rfl, ⟨_, rfl, rfl⟩⟩

/-- C9 (amended): for a dispatch with no registered middleware whose inner
handler completed the whole pipeline — witnessed by the request snapshot
being attached, i.e. no transport, streaming or decoding failure — the
status code every hook observed equals the StatusCode of the returned
Response. (When a later stage fails, the dispatch still returns without
error but with a recorded 500, and hooks saw the upstream status: see the
counterexample.) -/
theorem claim_hooks_status (c : Client) (env : Env) (m ep : String)
    (body : Option (Except String String))
    (hmw : c.middleware = [])
    (hs : ((doRequest c env m ep body).2).snapshot.isSome = true) :
    ∃ r, (doRequest c env m ep body).1 = Except.ok r ∧
      ∀ s ∈ (doRequest c env m ep body).2.hookStatuses, s = r.statusCode := by
  cases hprep : prepareRequestBody c env body with
  | error e => simp [doRequest, hprep, World.init] at hs
  | ok rb =>
    cases hurl : env.parseURL (c.baseURL ++ ep) with
    | error e => simp [doRequest, hprep, hurl, World.init] at hs
    | ok u =>
      rw [doRequest_run c env m ep body rb u hmw hprep hurl] at hs ⊢
      simp only at hs ⊢
      obtain ⟨resp, hnet, hsnap, hhooks, hcode⟩ :=
        createHandler_of_snapshot c env m
          (setRequestHeaders c env { method := m, url := u, header := [], body := rb.1 } m)
          rb.2
          (setRequestHeaders c env { method := m, url := u, header := [], body := rb.1 } m)
          World.init rfl rfl hs
      refine ⟨_, rfl, ?_⟩
      intro s hsmem
      rw [hhooks] at hsmem
      simp only [World.init, List.nil_append] at hsmem
      rw [List.eq_of_mem_replicate hsmem]
      exact hcode.symm

/-- Witness for C9 (amended): a fully successful dispatch with two hooks;
both observed the returned status. -/
theorem claim_hooks_status_witness :
    ∃ r, (doRequest { baseURL := "http://x", hooks := 2 } envOk "GET" "/a" none).1 =
        Except.ok r ∧
      ∀ s ∈ (doRequest { baseURL := "http://x", hooks := 2 } envOk "GET" "/a" none).2.hookStatuses,
        s = r.statusCode :=
  claim_hooks_status { baseURL := "http://x", hooks := 2 } envOk "GET" "/a" none rfl rfl

/-- C1 counterexample: a network-transport failure does not surface as a
returned error — the dispatch returns a nil error and a normally returned
Response with status 500 whose body is the transport error text, refuting
the claim for the transport (and likewise decoding) error conditions. -/
theorem claim_error_surfacing_counterexample :
    ∃ r, (doRequest { baseURL := "http://x" }
        { fs := fun _ => Except.error "nofs",
          parseURL := fun s => Except.ok { pre := s, rawQuery := "" },
          net := Except.error "connection refused",
          decodeOutput := fun _ => Except.ok (), boundary := "B" }
        "GET" "/a" none).1 = Except.ok r ∧
      r.statusCode = 500 ∧ r.body = "connection refused\n" :=
  ⟨_, rfl, rfl, rfl⟩

/-- C1 (amended): request-construction, body-serialisation and
form-encoding failures abort the dispatch and are returned to the caller
as explicit errors, with no Response and no network call; but transport
and output-decoding failures do not surface as returned errors — the
dispatch returns a nil error together with a normally returned Response
whose status code is 500 and whose body is the error text plus a newline.
No error condition crashes the process (every path returns a value). -/
theorem claim_error_surfacing :
    (∀ (c : Client) (env : Env) (m ep e : String), multipartActive c = false →
      doRequest c env m ep (some (Except.error e)) = (Except.error e, World.init)) ∧
    (∀ (c : Client) (env : Env) (m ep : String) (body : Option (Except String String))
      (rb : ReqBody × String) (e : String),
      prepareRequestBody c env body = Except.ok rb →
      env.parseURL (c.baseURL ++ ep) = Except.error e →
      doRequest c env m ep body = (Except.error e, World.init)) ∧
    (∀ (c : Client) (env : Env) (m ep : String) (body : Option (Except String String))
      (e : String),
      multipartActive c = true → writeFormData c env = Except.error e →
      doRequest c env m ep body = (Except.error e, World.init)) ∧
    (∀ (c : Client) (env : Env) (m ep : String) (body : Option (Except String String))
      (rb : ReqBody × String) (u : ParsedURL) (e : String),
      c.middleware = [] → prepareRequestBody c env body = Except.ok rb →
      env.parseURL (c.baseURL ++ ep) = Except.ok u → env.net = Except.error e →
      ∃ r, (doRequest c env m ep body).1 = Except.ok r ∧ r.statusCode = 500 ∧
        r.body = e ++ "\n") ∧
    (∀ (c : Client) (env : Env) (m ep : String) (body : Option (Except String String))
      (rb : ReqBody × String) (u : ParsedURL) (resp : TranspResp) (e : String),
      c.middleware = [] → prepareRequestBody c env body = Except.ok rb →
      env.parseURL (c.baseURL ++ ep) = Except.ok u → env.net = Except.ok resp →
      c.stream = none → c.hasOutput = true → env.decodeOutput resp.body = Except.error e →
      ∃ r, (doRequest c env m ep body).1 = Except.ok r ∧ r.statusCode = 500 ∧
        r.body = e ++ "\n") := by
  refine ⟨?_, ?_, ?_, ?_, ?_⟩
  · intro c env m ep e hforms
    simp [doRequest, prepareRequestBody, hforms]
  · intro c env m ep body rb e hprep hurl
    simp [doRequest, hprep, hurl]
  · intro c env m ep body e hforms hwf
    simp [doRequest, prepareRequestBody, hforms, hwf]
  · intro c env m ep body rb u e hmw hprep hurl hnet
    rw [doRequest_run c env m ep body rb u hmw hprep hurl]
    simp only
    obtain ⟨hcode, hbody, _, _⟩ :=
      createHandler_net_error c env m
        (setRequestHeaders c env { method := m, url := u, header := [], body := rb.1 } m) rb.2
        (setRequestHeaders c env { method := m, url := u, header := [], body := rb.1 } m)
        World.init rfl e hnet
    exact ⟨_, rfl, hcode, hbody⟩
  · intro c env m ep body rb u resp e hmw hprep hurl hnet hstream hout hdec
    rw [doRequest_run c env m ep body rb u hmw hprep hurl]
    simp only
    obtain ⟨hcode, hbody, _, _⟩ :=
      createHandler_decode_error c env m
        (setRequestHeaders c env { method := m, url := u, header := [], body := rb.1 } m) rb.2
        (setRequestHeaders c env { method := m, url := u, header := [], body := rb.1 } m)
        World.init rfl resp e hnet hstream hout hdec
    exact ⟨_, rfl, hcode, hbody⟩

/-- Witness for C1 (amended): each of the five error conditions at a
concrete input. -/
theorem claim_error_surfacing_witness :
    doRequest {} envOk "POST" "/a" (some (Except.error "json: unsupported type")) =
      (Except.error "json: unsupported type", World.init) ∧
    doRequest {} { envOk with parseURL := fun _ => Except.error "parse: bad url" }
      "GET" "/a" none = (Except.error "parse: bad url", World.init) ∧
    doRequest { formFilePath := [("f", "/nope")] }
      { envOk with fs := fun _ => Except.error "open: no such file" } "POST" "/a" none =
      (Except.error "open: no such file", World.init) ∧
    (∃ r, (doRequest {} { envOk with net := Except.error "dial tcp: refused" }
        "GET" "/a" none).1 = Except.ok r ∧ r.statusCode = 500 ∧
        r.body = "dial tcp: refused" ++ "\n") ∧
    (∃ r, (doRequest { hasOutput := true }
        { envOk with decodeOutput := fun _ => Except.error "invalid JSON" }
        "GET" "/a" none).1 = Except.ok r ∧ r.statusCode = 500 ∧
        r.body = "invalid JSON" ++ "\n") :=
  ⟨claim_error_surfacing.1 {} envOk "POST" "/a" "json: unsupported type" rfl,
   claim_error_surfacing.2.1 {} _ "GET" "/a" none (ReqBody.empty, "") "parse: bad url" rfl rfl,
   claim_error_surfacing.2.2.1 { formFilePath := [("f", "/nope")] } _ "POST" "/a" none
     "open: no such file" rfl rfl,
   claim_error_surfacing.2.2.2.1 {} _ "GET" "/a" none (ReqBody.empty, "")
     { pre := "/a", rawQuery := "" } "dial tcp: refused" rfl rfl rfl rfl,
   claim_error_surfacing.2.2.2.2 { hasOutput := true } _ "GET" "/a" none (ReqBody.empty, "")
     { pre := "/a", rawQuery := "" } { statusCode := 200, body := "hello" } "invalid JSON"
     rfl rfl rfl rfl rfl rfl rfl⟩

/-- Composing snapshot-respecting middleware over an invariant-preserving
base handler preserves the snapshot invariant. -/
theorem composeMiddleware_QPInv (mws : List Middleware) (req : Req) (base : HandlerFunc)
    (hbase : ∀ r w, QPInv w → QPInv (base r w))
    (hmws : ∀ mw ∈ mws, SnapshotRespecting mw) :
    ∀ r w, QPInv w → QPInv (composeMiddleware mws req base r w) := by
  induction mws with
  | nil => exact hbase
  | cons mw rest ih =>
    intro r w hw
    exact (hmws mw (List.mem_cons_self mw rest)) req (composeMiddleware rest req base)
      (ih (fun m hm => hmws m (List.mem_cons_of_mem _ hm))) r w hw

/-- C10: the RequestDescriptor snapshot attached to every dispatched
Response has an empty QueryParams field — the snapshot assignment omits
it, so it stays at the zero value, and for GET/DELETE the accumulated
parameters live only inside the URL string — hence the curl renderer
applied to a dispatched descriptor never takes the branch appending a
separate encoded query string after the URL. Middleware are assumed
snapshot-respecting, which all Go middleware are (the snapshot variable is
local to `doRequest` and reachable only through the inner handler). -/
theorem claim_snapshot_no_queryparams (c : Client) (env : Env) (m ep : String)
    (body : Option (Except String String))
    (hmws : ∀ mw ∈ c.middleware, SnapshotRespecting mw) :
    ∀ r, (doRequest c env m ep body).1 = Except.ok r →
      r.request.queryParams = [] ∧ curlUrlSegment r.request = r.request.url := by
  intro r hr
  have hq : r.request.queryParams = [] := by
    cases hprep : prepareRequestBody c env body with
    | error e => simp [doRequest, hprep] at hr
    | ok rb =>
      cases hurl : env.parseURL (c.baseURL ++ ep) with
      | error e => simp [doRequest, hprep, hurl] at hr
      | ok u =>
        simp only [doRequest, hprep, hurl, Except.ok.injEq] at hr
        have hinv : QPInv ((composeMiddleware c.middleware
            (setRequestHeaders c env { method := m, url := u, header := [], body := rb.1 } m)
            (createHandler c env m
              (setRequestHeaders c env { method := m, url := u, header := [], body := rb.1 } m)
              rb.2))
            (setRequestHeaders c env { method := m, url := u, header := [], body := rb.1 } m)
            World.init) :=
          composeMiddleware_QPInv c.middleware _ _
            (fun r' w' hw' => createHandler_QPInv c env m _ rb.2 r' w' hw')
            hmws _ World.init (fun rq hrq => by cases hrq)
        rw [← hr]
        cases hsnap : (composeMiddleware c.middleware
            (setRequestHeaders c env { method := m, url := u, header := [], body := rb.1 } m)
            (createHandler c env m
              (setRequestHeaders c env { method := m, url := u, header := [], body := rb.1 } m)
              rb.2)
            (setRequestHeaders c env { method := m, url := u, header := [], body := rb.1 } m)
            World.init).snapshot with
        | none => simp [hsnap]
        | some rq => simp only [hsnap, Option.getD_some]; exact hinv rq hsnap
  refine ⟨hq, ?_⟩
  unfold curlUrlSegment
  rw [hq]
  simp

/-- Witness for C10: a GET with an accumulated query parameter — the
returned snapshot has empty QueryParams and the curl URL segment is the
bare URL (which itself carries the query). -/
theorem claim_snapshot_no_queryparams_witness :
    ∃ r, (doRequest { baseURL := "http://x", queryParams := [("key", ["value"])] }
        envOk "GET" "/t" none).1 = Except.ok r ∧
      r.request.queryParams = [] ∧ curlUrlSegment r.request = r.request.url :=
  ⟨_, rfl, claim_snapshot_no_queryparams
    { baseURL := "http://x", queryParams := [("key", ["value"])] } envOk "GET" "/t" none
    (fun mw h => absurd h (List.not_mem_nil mw)) _ rfl⟩

end Vortex
